import Mathlib

/-!
Verification of the authoritative-server / predicted-client movement core of
the MultiplayerBoilerplate repository.

The numeric code of the repository works on JavaScript numbers.  We embed it
over an arbitrary `LinearOrderedField α` (exact arithmetic); the two
transcendental operations used by the source, `Math.sqrt` (also underlying
`Math.hypot`) and `Math.atan2`, are passed in as explicit function
parameters `sq : α → α` and `at2 : α → α → α`.  Theorems that depend on the
actual meaning of the square root instantiate `α := ℝ` and `sq := Real.sqrt`;
theorems that do not are stated generically.  `Math.random()` results are
passed in as explicit parameters ranging over `[0, 1)`.
-/

namespace Arena

/-- Server-side input snapshot per client (`InputState` in `ArenaRoom.ts`):
four directional intent booleans. -/
structure InputState where
  up : Bool
  down : Bool
  left : Bool
  right : Bool
  deriving DecidableEq, Repr

/-- The all-false input snapshot installed at join time (`onJoin`). -/
def InputState.none : InputState :=
  { up := false, down := false, left := false, right := false }

/-- Wire-level input message (`InputMessage = Partial<InputState> & {seq?}`):
every field may be absent; `!!data.up` coerces an absent field to `false`. -/
structure InputMessage where
  up : Option Bool
  down : Option Bool
  left : Option Bool
  right : Option Bool
  seq : Option ℚ
  deriving DecidableEq, Repr

/-- The player entity schema (`Player` in `schema/State.ts`), together with
the `lastProcessedInput` field written by the input handler in
`ArenaRoom.ts` and read back by the client for reconciliation.  Numeric
fields live in the embedding field `α`; `lastProcessedInput` mirrors the
message sequence numbers and is kept in `ℚ`. -/
structure Player (α : Type) where
  x : α
  y : α
  angle : α
  speed : α
  color : String
  patrol : Bool
  tx : α
  ty : α
  lastProcessedInput : ℚ
  deriving DecidableEq, Repr

/-- Per-client token bucket (`inputBudget` entry): `tokens` and the epoch-ms
timestamp `last` of the previous refill.  Times are rationals (milliseconds). -/
structure Bucket where
  tokens : ℚ
  last : ℚ
  deriving DecidableEq, Repr

/-- Rate-limit constant `MAX_INPUTS_PER_SEC = 60` from `ArenaRoom.ts`. -/
def MAX_INPUTS_PER_SEC : ℚ := 60

variable {α : Type} [LinearOrderedField α]

/-- Inclusive clamp, from `clamp` in `ArenaRoom.ts` / `GameScene.ts`:
`Math.max(min, Math.min(max, v))`. -/
def clamp (v mn mx : α) : α :=
  max mn (min mx v)

/-- Waypoint assignment (`ArenaRoom.assignNewWaypoint`): picks
`margin + Math.random() * (size - margin*2)` on each axis; the two
`Math.random()` draws are the parameters `rx`, `ry`. -/
def assignNewWaypoint (width height rx ry : α) (p : Player α) : Player α :=
  { p with tx := 50 + rx * (width - 50 * 2), ty := 50 + ry * (height - 50 * 2) }

/-- Horizontal direction component built by the manual-movement branch of
`ArenaRoom.simulate`: `ix` starts at 0, `left` subtracts 1, `right` adds 1. -/
def dirX (input : InputState) : α :=
  (if input.left then -1 else 0) + (if input.right then 1 else 0)

/-- Vertical direction component: `iy` starts at 0, `up` subtracts 1,
`down` adds 1. -/
def dirY (input : InputState) : α :=
  (if input.up then -1 else 0) + (if input.down then 1 else 0)

/-- Velocity vector `(vx, vy)` of the manual-movement branch of
`ArenaRoom.simulate`: the direction pair is normalized by `1 / Math.sqrt 2`
when both components are nonzero, then multiplied by `speed`. -/
def velocity (sq : α → α) (input : InputState) (speed : α) : α × α :=
  let ix : α := dirX input
  let iy : α := dirY input
  let nx : α := if ix ≠ 0 ∧ iy ≠ 0 then ix * (1 / sq 2) else ix
  let ny : α := if ix ≠ 0 ∧ iy ≠ 0 then iy * (1 / sq 2) else iy
  (nx * speed, ny * speed)

/-- Per-tick displacement vector of the manual-movement branch before
clamping: velocity integrated over `dt` seconds (`vx * dt`, `vy * dt`). -/
def moveDelta (sq : α → α) (input : InputState) (speed dt : α) : α × α :=
  ((velocity sq input speed).1 * dt, (velocity sq input speed).2 * dt)

/-- One authoritative simulation tick for a single entity: the body of the
`forEach` in `ArenaRoom.simulate`.  `sq` stands for `Math.sqrt` (so
`Math.hypot dx dy = sq (dx*dx + dy*dy)`), `at2` for `Math.atan2`, and
`(rx, ry)` for the two `Math.random()` draws consumed if a fresh patrol
waypoint is assigned.  `dt` is `TICK_MS / 1000` seconds. -/
def simulatePlayer (sq : α → α) (at2 : α → α → α) (width height dt rx ry : α)
    (input : InputState) (p : Player α) : Player α :=
  if p.patrol && !(input.up || input.down || input.left || input.right) then
    -- patrol branch
    let dx := p.tx - p.x
    let dy := p.ty - p.y
    let dist := sq (dx * dx + dy * dy)
    if dist < 5 then
      assignNewWaypoint width height rx ry p
    else
      -- `dist || 1` in JS: use 1 when dist is exactly 0
      let d := if dist = 0 then 1 else dist
      let vx := dx / d * p.speed
      let vy := dy / d * p.speed
      { p with
        x := clamp (p.x + vx * dt) 0 width
        y := clamp (p.y + vy * dt) 0 height
        angle := at2 vy vx }
  else
    -- manual-movement branch
    let ix : α := dirX input
    let iy : α := dirY input
    if ix ≠ 0 ∨ iy ≠ 0 then
      let v := velocity sq input p.speed
      { p with
        x := clamp (p.x + v.1 * dt) 0 width
        y := clamp (p.y + v.2 * dt) 0 height
        angle := at2 v.2 v.1 }
    else
      p

/-- The full authoritative tick (`ArenaRoom.simulate`) over the room's player
map, modelled as an association list in iteration order; `inputs` is the
per-client snapshot map (`this.inputs`, with the all-false default) and
`rand` supplies each entity's potential `Math.random()` draws. -/
def simulate (sq : α → α) (at2 : α → α → α) (width height dt : α)
    (inputs : String → InputState) (rand : String → α × α)
    (players : List (String × Player α)) : List (String × Player α) :=
  players.map fun e =>
    (e.1, simulatePlayer sq at2 width height dt (rand e.1).1 (rand e.1).2
      (inputs e.1) e.2)

/-- Entity creation at join (`ArenaRoom.onJoin` plus the schema defaults of
`Player` in `schema/State.ts`): spawn at `(Math.random()*width,
Math.random()*height)` with a palette color; all other fields keep their
schema defaults. -/
def spawnPlayer (width height r1 r2 : α) (color : String) : Player α :=
  { x := r1 * width, y := r2 * height, angle := 0, speed := 180,
    color := color, patrol := false, tx := 0, ty := 0, lastProcessedInput := 0 }

/-- Per-connection server state touched by the `"input"` message handler in
`ArenaRoom.onCreate`: the connection's token bucket (`inputBudget` entry,
absent if the connection is unknown), its current input snapshot
(`this.inputs` entry), and its player entity (`state.players` entry, absent
after leave). -/
structure ConnState (α : Type) where
  bucket : Option Bucket
  snapshot : InputState
  player : Option (Player α)
  deriving DecidableEq, Repr

/-- The `"input"` message handler of `ArenaRoom.onCreate`, lines 40–70:
token-bucket refill and check, snapshot overwrite, `lastProcessedInput`
stamp, patrol cancellation.  `now` is `Date.now()` in ms.  The returned
`Bool` is instrumentation only: `true` iff the message passed the rate
limiter (reached the code after `bucket.tokens -= 1`). -/
def handleInput (now : ℚ) (data : InputMessage) (st : ConnState α) :
    ConnState α × Bool :=
  match st.bucket with
  | Option.none => (st, false)
  | some bucket =>
    let refill := ((now - bucket.last) / 1000) * MAX_INPUTS_PER_SEC
    let tokens := min MAX_INPUTS_PER_SEC (bucket.tokens + refill)
    if tokens < 1 then
      -- drop if out of tokens (refill and timestamp already written back)
      ({ st with bucket := some { tokens := tokens, last := now } }, false)
    else
      let bucket' : Bucket := { tokens := tokens - 1, last := now }
      let next : InputState :=
        { up := data.up.getD false, down := data.down.getD false,
          left := data.left.getD false, right := data.right.getD false }
      let p1 : Option (Player α) :=
        match st.player, data.seq with
        | some p, some s => some { p with lastProcessedInput := s }
        | op, _ => op
      let p2 : Option (Player α) :=
        match p1 with
        | some p =>
          if next.up || next.down || next.left || next.right then
            some { p with patrol := false }
          else
            some p
        | Option.none => Option.none
      ({ bucket := some bucket', snapshot := next, player := p2 }, true)

/-- Feed a timestamped list of input messages through `handleInput`,
counting how many the rate limiter accepted. -/
def runInputs (st : ConnState α) : List (ℚ × InputMessage) → ConnState α × ℕ
  | [] => (st, 0)
  | m :: ms =>
    let r := handleInput m.1 m.2 st
    let rest := runInputs r.1 ms
    (rest.1, (if r.2 then 1 else 0) + rest.2)

/-- Bucket installed at join (`ArenaRoom.onJoin`): a full budget of
`MAX_INPUTS_PER_SEC` tokens, stamped with the join time. -/
def joinBucket (now : ℚ) : Bucket :=
  { tokens := MAX_INPUTS_PER_SEC, last := now }

/-! Client side (`GameScene.ts`). -/

/-- One locally-buffered pending input (`this.pending` entry in
`GameScene.ts`): sequence number, the four intents, and the frame delta in
milliseconds recorded at send time. -/
structure PendingInput (α : Type) where
  seq : ℚ
  up : Bool
  down : Bool
  left : Bool
  right : Bool
  dt : α
  deriving DecidableEq, Repr

/-- The intent snapshot carried by a pending input. -/
def PendingInput.input (i : PendingInput α) : InputState :=
  { up := i.up, down := i.down, left := i.left, right := i.right }

/-- Replay of one pending input during reconciliation
(`GameScene.handlePlayerChange`, the `for (const i of this.pending)` body):
unit-or-normalized direction, `dt` capped at 50 ms, integration
`pos + dir * speed * dt` clamped to world bounds. -/
def applyPending (sq : α → α) (w h speed : α) (pos : α × α)
    (i : PendingInput α) : α × α :=
  let dx : α := (if i.left then -1 else 0) + (if i.right then 1 else 0)
  let dy : α := (if i.up then -1 else 0) + (if i.down then 1 else 0)
  let ndx : α := if dx ≠ 0 ∧ dy ≠ 0 then dx * (1 / sq 2) else dx
  let ndy : α := if dx ≠ 0 ∧ dy ≠ 0 then dy * (1 / sq 2) else dy
  let dt := min i.dt 50 / 1000
  (clamp (pos.1 + ndx * speed * dt) 0 w, clamp (pos.2 + ndy * speed * dt) 0 h)

/-- Body of one frame of local prediction after the frame delta has been
capped and scaled to seconds (`dt = min(delta, 50)/1000`): per-axis deltas
of `speed * dt`, diagonal normalization, clamp to world bounds. -/
def predictStepDt (sq : α → α) (w h speed dt : α) (input : InputState)
    (pos : α × α) : α × α :=
  let dx : α := (if input.left then -(speed * dt) else 0)
    + (if input.right then speed * dt else 0)
  let dy : α := (if input.up then -(speed * dt) else 0)
    + (if input.down then speed * dt else 0)
  let ndx : α := if dx ≠ 0 ∧ dy ≠ 0 then dx * (1 / sq 2) else dx
  let ndy : α := if dx ≠ 0 ∧ dy ≠ 0 then dy * (1 / sq 2) else dy
  (clamp (pos.1 + ndx) 0 w, clamp (pos.2 + ndy) 0 h)

/-- One frame of local prediction (`GameScene.updateLoop`, step 3, the
manual-integration else-branch, lines 229–241): per-axis deltas of
`speed * dt` with `dt = min(delta, 50)/1000`, diagonal normalization, clamp
to world bounds.  The separate drift-correction term (lines 243–250) fires
only when the predicted and authoritative positions disagree by more than
0.2 and is not part of the integration formula. -/
def predictStep (sq : α → α) (w h speed delta : α) (input : InputState)
    (pos : α × α) : α × α :=
  predictStepDt sq w h speed (min delta 50 / 1000) input pos

/-- Reconciliation on an authoritative update for the local player
(`GameScene.handlePlayerChange`): snap the prediction to the authoritative
position `(ax, ay)`, drop every pending input with `seq ≤ last`, replay the
survivors in order.  Returns the rebuilt predicted position and the
surviving buffer. -/
def reconcile (sq : α → α) (w h ax ay speed : α) (last : ℚ)
    (pending : List (PendingInput α)) : (α × α) × List (PendingInput α) :=
  let pending' := pending.filter fun i => last < i.seq
  (pending'.foldl (applyPending sq w h speed) (ax, ay), pending')

/-- Continuous unbroken local prediction over a list of buffered inputs:
each frame integrates with `predictStep` using the frame delta recorded in
the buffer entry. -/
def unbrokenPrediction (sq : α → α) (w h speed : α) (base : α × α)
    (inputs : List (PendingInput α)) : α × α :=
  inputs.foldl (fun pos i => predictStep sq w h speed i.dt i.input pos) base

/-- In-bounds predicate for an entity position: the clamp invariant domain
`[0, width] × [0, height]`. -/
def inBounds (width height : α) (p : Player α) : Prop :=
  0 ≤ p.x ∧ p.x ≤ width ∧ 0 ≤ p.y ∧ p.y ≤ height

instance (width height : α) (p : Player α) : Decidable (inBounds width height p) := by
  unfold inBounds
  infer_instance

theorem clamp_nonneg (v mx : α) : 0 ≤ clamp v 0 mx :=
  le_max_left 0 _

theorem clamp_le (v : α) {mx : α} (hmx : 0 ≤ mx) : clamp v 0 mx ≤ mx :=
  max_le hmx (min_le_left _ _)

theorem assignNewWaypoint_x (width height rx ry : α) (p : Player α) :
    (assignNewWaypoint width height rx ry p).x = p.x := rfl

theorem assignNewWaypoint_y (width height rx ry : α) (p : Player α) :
    (assignNewWaypoint width height rx ry p).y = p.y := rfl

/-- Case analysis on the branch structure of `simulatePlayer`: whatever
branch is taken, the new position is either the old position (early-return
branches) or a clamped value. -/
theorem simulatePlayer_pos_cases (sq : α → α) (at2 : α → α → α)
    (width height dt rx ry : α) (input : InputState) (p : Player α) :
    let q := simulatePlayer sq at2 width height dt rx ry input p
    (q.x = p.x ∧ q.y = p.y) ∨
      ((∃ v, q.x = clamp v 0 width) ∧ ∃ v, q.y = clamp v 0 height) := by
  intro q
  show (q.x = p.x ∧ q.y = p.y) ∨ _
  unfold q simulatePlayer
  split
  · -- patrol branch
    dsimp only
    split
    · exact Or.inl ⟨rfl, rfl⟩
    · exact Or.inr ⟨⟨_, rfl⟩, ⟨_, rfl⟩⟩
  · -- manual branch
    dsimp only
    split
    · exact Or.inr ⟨⟨_, rfl⟩, ⟨_, rfl⟩⟩
    · exact Or.inl ⟨rfl, rfl⟩

/-- C1: every entity position stays inside `[0, width] × [0, height]`: the
position assigned at spawn on join is in bounds (given the two
`Math.random()` draws in `[0, 1]` and nonnegative world dimensions), and one
authoritative simulation tick started from an in-bounds position lands in
bounds again, in either the patrol or the manual-input branch — so being in
bounds is an invariant of every reachable state. -/
theorem position_in_bounds_invariant (sq : α → α) (at2 : α → α → α)
    (width height dt rx ry r1 r2 : α) (c : String) (input : InputState)
    (p : Player α) (hw : 0 ≤ width) (hh : 0 ≤ height)
    (hr1 : 0 ≤ r1) (hr1' : r1 ≤ 1) (hr2 : 0 ≤ r2) (hr2' : r2 ≤ 1)
    (hp : inBounds width height p) :
    inBounds width height (spawnPlayer width height r1 r2 c) ∧
    inBounds width height (simulatePlayer sq at2 width height dt rx ry input p) := by
  constructor
  · exact ⟨mul_nonneg hr1 hw, mul_le_of_le_one_left hw hr1',
      mul_nonneg hr2 hh, mul_le_of_le_one_left hh hr2'⟩
  · rcases simulatePlayer_pos_cases sq at2 width height dt rx ry input p with
      ⟨hx, hy⟩ | ⟨⟨vx, hx⟩, ⟨vy, hy⟩⟩
    · exact ⟨hx ▸ hp.1, hx ▸ hp.2.1, hy ▸ hp.2.2.1, hy ▸ hp.2.2.2⟩
    · exact ⟨hx ▸ clamp_nonneg vx width, hx ▸ clamp_le vx hw,
        hy ▸ clamp_nonneg vy height, hy ▸ clamp_le vy hh⟩

/-- Witness for C1 at a concrete state: world 2000 × 2000, an entity at
(100, 100), random draws 1/2. -/
theorem position_in_bounds_invariant_witness :
    inBounds (2000 : ℚ) 2000
      { x := 100, y := 100, angle := 0, speed := 180, color := "#00c2ff",
        patrol := false, tx := 0, ty := 0, lastProcessedInput := 0 } ∧
    (inBounds (2000 : ℚ) 2000 (spawnPlayer 2000 2000 (1/2) (1/2) "#00c2ff") ∧
     inBounds (2000 : ℚ) 2000
       (simulatePlayer (fun x => x) (fun _ _ => 0) 2000 2000 (1/30) 0 0
         InputState.none
         { x := 100, y := 100, angle := 0, speed := 180, color := "#00c2ff",
           patrol := false, tx := 0, ty := 0, lastProcessedInput := 0 })) :=
  ⟨by decide,
   position_in_bounds_invariant (fun x => x) (fun _ _ => 0) 2000 2000 (1/30)
     0 0 (1/2) (1/2) "#00c2ff" InputState.none _ (by norm_num) (by norm_num)
     (by norm_num) (by norm_num) (by norm_num) (by norm_num) (by decide)⟩

/-- Concrete player fixture used by witnesses and counterexamples. -/
def pFix (patrol : Bool) (lpi : ℚ) : Player ℚ :=
  { x := 5, y := 7, angle := 0, speed := 180, color := "#00c2ff",
    patrol := patrol, tx := 1, ty := 2, lastProcessedInput := lpi }

/-- Concrete per-connection fixture: a bucket with the given token count
stamped at time 0, the all-false snapshot, and a `pFix` player. -/
def stFix (tokens : ℚ) (patrol : Bool) (lpi : ℚ) : ConnState ℚ :=
  { bucket := some { tokens := tokens, last := 0 }, snapshot := InputState.none,
    player := some (pFix patrol lpi) }

/-- Concrete message fixture: optional `up` intent and optional `seq`,
all other intents absent. -/
def msgFix (u : Option Bool) (s : Option ℚ) : InputMessage :=
  { up := u, down := Option.none, left := Option.none, right := Option.none,
    seq := s }

/-- C8: when the rate limiter drops an inbound input message (fewer than one
token available after the refill), nothing but the rate bucket changes: the
stored input snapshot and the whole player entity — `lastProcessedInput`,
patrol flag, position, angle — are exactly as before; only the bucket is
written back with the refilled token count and timestamp. -/
theorem dropped_input_changes_only_bucket (now : ℚ) (data : InputMessage)
    (st : ConnState α) (b : Bucket) (hb : st.bucket = some b)
    (htok : min MAX_INPUTS_PER_SEC
      (b.tokens + ((now - b.last) / 1000) * MAX_INPUTS_PER_SEC) < 1) :
    (handleInput now data st).2 = false ∧
    (handleInput now data st).1.snapshot = st.snapshot ∧
    (handleInput now data st).1.player = st.player ∧
    (handleInput now data st).1.bucket = some
      { tokens := min MAX_INPUTS_PER_SEC
          (b.tokens + ((now - b.last) / 1000) * MAX_INPUTS_PER_SEC),
        last := now } := by
  unfold handleInput
  rw [hb]
  dsimp only
  rw [if_pos htok]
  exact ⟨rfl, rfl, rfl, rfl⟩

/-- Witness for C8: an empty bucket 5 ms after its stamp refills to only
0.3 tokens, so the message is dropped and the connection state survives. -/
theorem dropped_input_changes_only_bucket_witness :
    ((stFix 0 true 9).bucket = some ⟨0, 0⟩ ∧
     min MAX_INPUTS_PER_SEC (((0 : ℚ)) + ((5 - 0) / 1000) * MAX_INPUTS_PER_SEC) < 1) ∧
    ((handleInput 5 (msgFix (some true) (some 3)) (stFix 0 true 9)).2 = false ∧
     (handleInput 5 (msgFix (some true) (some 3)) (stFix 0 true 9)).1.snapshot
       = (stFix 0 true 9).snapshot ∧
     (handleInput 5 (msgFix (some true) (some 3)) (stFix 0 true 9)).1.player
       = (stFix 0 true 9).player ∧
     (handleInput 5 (msgFix (some true) (some 3)) (stFix 0 true 9)).1.bucket
       = some { tokens := min MAX_INPUTS_PER_SEC (((0 : ℚ)) + ((5 - 0) / 1000) * MAX_INPUTS_PER_SEC), last := 5 }) :=
  ⟨⟨rfl, by norm_num [MAX_INPUTS_PER_SEC, min_def]⟩,
   dropped_input_changes_only_bucket 5 (msgFix (some true) (some 3))
     (stFix 0 true 9) ⟨0, 0⟩ rfl (by norm_num [MAX_INPUTS_PER_SEC, min_def])⟩

/-- C10 (implicit): an accepted input message whose four intents are all
absent or false still overwrites the stored snapshot with the all-false
snapshot and, when a numeric `seq` is present, still stamps it into the
entity's `lastProcessedInput`, while leaving the patrol flag (and every
other entity field) untouched. -/
theorem allfalse_input_acks_seq_keeps_patrol (now : ℚ) (data : InputMessage)
    (st : ConnState α) (b : Bucket) (p : Player α) (s : ℚ)
    (hb : st.bucket = some b)
    (htok : ¬ min MAX_INPUTS_PER_SEC
      (b.tokens + ((now - b.last) / 1000) * MAX_INPUTS_PER_SEC) < 1)
    (hp : st.player = some p) (hs : data.seq = some s)
    (hu : data.up.getD false = false) (hd : data.down.getD false = false)
    (hl : data.left.getD false = false) (hr : data.right.getD false = false) :
    (handleInput now data st).2 = true ∧
    (handleInput now data st).1.snapshot = InputState.none ∧
    (handleInput now data st).1.player
      = some { p with lastProcessedInput := s } := by
  unfold handleInput
  rw [hb]
  dsimp only
  rw [if_neg htok]
  dsimp only
  rw [hp, hs, hu, hd, hl, hr]
  dsimp only
  refine ⟨rfl, rfl, ?_⟩
  simp [InputState.none]

/-- Witness for C10: a patrolling entity receives an all-absent message with
`seq = 4`; the seq is stamped, patrol stays on. -/
theorem allfalse_input_acks_seq_keeps_patrol_witness :
    ((stFix 60 true 3).player = some (pFix true 3) ∧
     ¬ min MAX_INPUTS_PER_SEC
       (((60 : ℚ)) + ((100 - 0) / 1000) * MAX_INPUTS_PER_SEC) < 1) ∧
    ((handleInput 100 (msgFix Option.none (some 4)) (stFix 60 true 3)).2 = true ∧
     (handleInput 100 (msgFix Option.none (some 4)) (stFix 60 true 3)).1.snapshot
       = InputState.none ∧
     (handleInput 100 (msgFix Option.none (some 4)) (stFix 60 true 3)).1.player
       = some { pFix true 3 with lastProcessedInput := 4 }) :=
  ⟨⟨rfl, by norm_num [MAX_INPUTS_PER_SEC, min_def]⟩,
   allfalse_input_acks_seq_keeps_patrol 100 (msgFix Option.none (some 4))
     (stFix 60 true 3) ⟨60, 0⟩ (pFix true 3) 4 rfl
     (by norm_num [MAX_INPUTS_PER_SEC, min_def]) rfl rfl rfl rfl rfl rfl⟩

/-- C3 counterexample: the server stores the incoming `seq` unconditionally,
so an accepted message carrying a smaller `seq` makes `lastProcessedInput`
decrease: an entity holding `lastProcessedInput = 5` that receives an
accepted message with `seq = 3` ends up holding `3`, and `3 < 5`. -/
theorem lastProcessedInput_can_decrease :
    (handleInput 0 (msgFix Option.none (some 3)) (stFix 60 false 5)).2 = true ∧
    (handleInput 0 (msgFix Option.none (some 3)) (stFix 60 false 5)).1.player
      = some (pFix false 3) ∧
    ¬ ((5 : ℚ) ≤ (3 : ℚ)) := by
  norm_num [handleInput, msgFix, stFix, pFix, MAX_INPUTS_PER_SEC, min_def,
    InputState.none]

/-- C3 (amended): `lastProcessedInput` is non-decreasing provided every
accepted message's `seq` is at least the currently stored value — which the
repository's client guarantees by sending a strictly increasing counter.
The server itself writes the incoming `seq` unconditionally, so without
that proviso the field can decrease. -/
theorem lastProcessedInput_nondecreasing_of_monotone_seqs (now : ℚ)
    (data : InputMessage) (st : ConnState α) (p q : Player α)
    (hp : st.player = some p)
    (hmono : ∀ s, data.seq = some s → p.lastProcessedInput ≤ s)
    (hq : (handleInput now data st).1.player = some q) :
    p.lastProcessedInput ≤ q.lastProcessedInput := by
  unfold handleInput at hq
  rcases hb : st.bucket with _ | b <;> rw [hb] at hq <;> dsimp only at hq
  · rw [hp, Option.some.injEq] at hq
    subst hq
    exact le_rfl
  · by_cases htok : min MAX_INPUTS_PER_SEC
      (b.tokens + ((now - b.last) / 1000) * MAX_INPUTS_PER_SEC) < 1
    · rw [if_pos htok] at hq
      dsimp only at hq
      rw [hp, Option.some.injEq] at hq
      subst hq
      exact le_rfl
    · rw [if_neg htok] at hq
      dsimp only at hq
      rw [hp] at hq
      rcases hs : data.seq with _ | s <;> rw [hs] at hq <;> dsimp only at hq
      · split at hq <;>
          (rw [Option.some.injEq] at hq; subst hq; exact le_rfl)
      · split at hq <;>
          (rw [Option.some.injEq] at hq; subst hq; exact hmono s hs)

/-- Witness for C3's amended theorem: an accepted message moves the stored
seq from 3 up to 4. -/
theorem lastProcessedInput_nondecreasing_witness :
    ((stFix 60 false 3).player = some (pFix false 3) ∧
     (handleInput 0 (msgFix Option.none (some 4)) (stFix 60 false 3)).1.player
       = some (pFix false 4)) ∧
    (pFix false 3).lastProcessedInput ≤ (pFix false 4).lastProcessedInput :=
  ⟨⟨rfl, by norm_num [handleInput, msgFix, stFix, pFix, MAX_INPUTS_PER_SEC,
      min_def, InputState.none]⟩,
   lastProcessedInput_nondecreasing_of_monotone_seqs 0
     (msgFix Option.none (some 4)) (stFix 60 false 3) (pFix false 3)
     (pFix false 4) rfl
     (fun s hs => by
       injection hs with h
       subst h
       norm_num [pFix])
     (by norm_num [handleInput, msgFix, stFix, pFix, MAX_INPUTS_PER_SEC,
       min_def, InputState.none])⟩


/-- The direction components only ever take the values −1, 0, or 1. -/
theorem dirX_cases (input : InputState) :
    dirX (α := α) input = 0 ∨ (dirX (α := α) input) ^ 2 = 1 := by
  obtain ⟨u, d, l, r⟩ := input
  unfold dirX
  cases l <;> cases r <;> norm_num

theorem dirY_cases (input : InputState) :
    dirY (α := α) input = 0 ∨ (dirY (α := α) input) ^ 2 = 1 := by
  obtain ⟨u, d, l, r⟩ := input
  unfold dirY
  cases u <;> cases d <;> norm_num

/-- With both direction components nonzero, the velocity of the
manual-movement branch is the normalized direction times speed. -/
theorem velocity_diag (sq : α → α) (input : InputState) (speed : α)
    (hdx : dirX (α := α) input ≠ 0) (hdy : dirY (α := α) input ≠ 0) :
    velocity sq input speed
      = (dirX input * (1 / sq 2) * speed, dirY input * (1 / sq 2) * speed) := by
  unfold velocity
  dsimp only
  rw [if_pos ⟨hdx, hdy⟩, if_pos ⟨hdx, hdy⟩]

/-- With at most one nonzero direction component, the velocity is the raw
direction times speed (no normalization). -/
theorem velocity_axial (sq : α → α) (input : InputState) (speed : α)
    (h : dirX (α := α) input = 0 ∨ dirY (α := α) input = 0) :
    velocity sq input speed = (dirX input * speed, dirY input * speed) := by
  have hcond : ¬ (dirX (α := α) input ≠ 0 ∧ dirY (α := α) input ≠ 0) := by
    rintro ⟨hx, hy⟩
    rcases h with h | h
    · exact hx h
    · exact hy h
  unfold velocity
  dsimp only
  rw [if_neg hcond, if_neg hcond]

/-- Squared magnitude of the per-tick displacement for a diagonal intent
pair, over `ℝ` with the genuine square root: exactly `(speed·dt)²`. -/
theorem moveDelta_diag_sq (input : InputState) (speed dt : ℝ)
    (hdx : dirX (α := ℝ) input ≠ 0) (hdy : dirY (α := ℝ) input ≠ 0) :
    (moveDelta Real.sqrt input speed dt).1 ^ 2
      + (moveDelta Real.sqrt input speed dt).2 ^ 2 = (speed * dt) ^ 2 := by
  have hx2 := (dirX_cases (α := ℝ) input).resolve_left hdx
  have hy2 := (dirY_cases (α := ℝ) input).resolve_left hdy
  have hinv : (1 / Real.sqrt 2 : ℝ) ^ 2 = 1 / 2 := by
    rw [div_pow, one_pow, Real.sq_sqrt (by norm_num : (0:ℝ) ≤ 2)]
  unfold moveDelta
  rw [velocity_diag Real.sqrt input speed hdx hdy]
  dsimp only
  have e1 : (dirX (α := ℝ) input * (1 / Real.sqrt 2) * speed * dt) ^ 2
      = dirX (α := ℝ) input ^ 2 * ((1 / Real.sqrt 2) ^ 2 * (speed * dt) ^ 2) := by
    ring
  have e2 : (dirY (α := ℝ) input * (1 / Real.sqrt 2) * speed * dt) ^ 2
      = dirY (α := ℝ) input ^ 2 * ((1 / Real.sqrt 2) ^ 2 * (speed * dt) ^ 2) := by
    ring
  rw [e1, e2, hx2, hy2, hinv]
  ring

/-- Squared magnitude of the per-tick displacement for a single-axis intent:
also exactly `(speed·dt)²`. -/
theorem moveDelta_axial_sq (input : InputState) (speed dt : ℝ)
    (h : (dirX (α := ℝ) input ≠ 0 ∧ dirY (α := ℝ) input = 0) ∨
         (dirX (α := ℝ) input = 0 ∧ dirY (α := ℝ) input ≠ 0)) :
    (moveDelta Real.sqrt input speed dt).1 ^ 2
      + (moveDelta Real.sqrt input speed dt).2 ^ 2 = (speed * dt) ^ 2 := by
  unfold moveDelta
  rcases h with ⟨hdx, hdy⟩ | ⟨hdx, hdy⟩
  · have hx2 := (dirX_cases (α := ℝ) input).resolve_left hdx
    rw [velocity_axial Real.sqrt input speed (Or.inr hdy)]
    dsimp only
    rw [hdy]
    have e1 : (dirX (α := ℝ) input * speed * dt) ^ 2
        = dirX (α := ℝ) input ^ 2 * (speed * dt) ^ 2 := by ring
    rw [e1, hx2]
    ring
  · have hy2 := (dirY_cases (α := ℝ) input).resolve_left hdy
    rw [velocity_axial Real.sqrt input speed (Or.inl hdx)]
    dsimp only
    rw [hdx]
    have e2 : (dirY (α := ℝ) input * speed * dt) ^ 2
        = dirY (α := ℝ) input ^ 2 * (speed * dt) ^ 2 := by ring
    rw [e2, hy2]
    ring

/-- C5: a tick with two perpendicular intents active produces a per-tick
displacement (before clamping) whose Euclidean magnitude equals that of a
single-axis tick at the same speed and delta — both equal `speed * dt` —
because the diagonal direction is normalized by `1/√2`. -/
theorem diagonal_magnitude_eq_axial (speed dt : ℝ) (diag axial : InputState)
    (hs : 0 ≤ speed) (hdt : 0 ≤ dt)
    (hdx : dirX (α := ℝ) diag ≠ 0) (hdy : dirY (α := ℝ) diag ≠ 0)
    (hax : (dirX (α := ℝ) axial ≠ 0 ∧ dirY (α := ℝ) axial = 0) ∨
           (dirX (α := ℝ) axial = 0 ∧ dirY (α := ℝ) axial ≠ 0)) :
    Real.sqrt ((moveDelta Real.sqrt diag speed dt).1 ^ 2
        + (moveDelta Real.sqrt diag speed dt).2 ^ 2)
      = Real.sqrt ((moveDelta Real.sqrt axial speed dt).1 ^ 2
          + (moveDelta Real.sqrt axial speed dt).2 ^ 2) ∧
    Real.sqrt ((moveDelta Real.sqrt diag speed dt).1 ^ 2
        + (moveDelta Real.sqrt diag speed dt).2 ^ 2) = speed * dt := by
  rw [moveDelta_diag_sq diag speed dt hdx hdy, moveDelta_axial_sq axial speed dt hax]
  exact ⟨rfl, Real.sqrt_sq (mul_nonneg hs hdt)⟩

/-- Witness for C5: up+left versus right at speed 180 and a 33 ms tick. -/
theorem diagonal_magnitude_eq_axial_witness :
    (dirX (α := ℝ) ⟨true, false, true, false⟩ ≠ 0 ∧
     dirY (α := ℝ) ⟨true, false, true, false⟩ ≠ 0 ∧
     dirX (α := ℝ) ⟨false, false, false, true⟩ ≠ 0 ∧
     dirY (α := ℝ) ⟨false, false, false, true⟩ = 0) ∧
    (Real.sqrt ((moveDelta Real.sqrt ⟨true, false, true, false⟩ 180 (1/30)).1 ^ 2
        + (moveDelta Real.sqrt ⟨true, false, true, false⟩ 180 (1/30)).2 ^ 2)
      = Real.sqrt ((moveDelta Real.sqrt ⟨false, false, false, true⟩ 180 (1/30)).1 ^ 2
          + (moveDelta Real.sqrt ⟨false, false, false, true⟩ 180 (1/30)).2 ^ 2) ∧
     Real.sqrt ((moveDelta Real.sqrt ⟨true, false, true, false⟩ 180 (1/30)).1 ^ 2
        + (moveDelta Real.sqrt ⟨true, false, true, false⟩ 180 (1/30)).2 ^ 2)
       = 180 * (1/30)) :=
  ⟨⟨by norm_num [dirX], by norm_num [dirY], by norm_num [dirX], by norm_num [dirY]⟩,
   diagonal_magnitude_eq_axial 180 (1/30) ⟨true, false, true, false⟩
     ⟨false, false, false, true⟩ (by norm_num) (by norm_num)
     (by norm_num [dirX]) (by norm_num [dirY])
     (Or.inl ⟨by norm_num [dirX], by norm_num [dirY]⟩)⟩

/-- With patrol active, all-false intent, and distance to the waypoint below
the threshold, the tick only reassigns the waypoint. -/
theorem simulatePlayer_patrol_near (sq : α → α) (at2 : α → α → α)
    (width height dt rx ry : α) (p : Player α) (hpat : p.patrol = true)
    (hdist : sq ((p.tx - p.x) * (p.tx - p.x) + (p.ty - p.y) * (p.ty - p.y)) < 5) :
    simulatePlayer sq at2 width height dt rx ry InputState.none p
      = assignNewWaypoint width height rx ry p := by
  have hcond : (p.patrol && !(InputState.none.up || InputState.none.down
      || InputState.none.left || InputState.none.right)) = true := by
    rw [hpat]; rfl
  unfold simulatePlayer
  rw [if_pos hcond]
  dsimp only
  rw [if_pos hdist]

/-- With patrol active, all-false intent, and distance at or above the
threshold, the tick moves toward the waypoint and keeps it. -/
theorem simulatePlayer_patrol_far (sq : α → α) (at2 : α → α → α)
    (width height dt rx ry : α) (p : Player α) (hpat : p.patrol = true)
    (hdist : ¬ sq ((p.tx - p.x) * (p.tx - p.x) + (p.ty - p.y) * (p.ty - p.y)) < 5) :
    (simulatePlayer sq at2 width height dt rx ry InputState.none p).tx = p.tx ∧
    (simulatePlayer sq at2 width height dt rx ry InputState.none p).ty = p.ty := by
  have hcond : (p.patrol && !(InputState.none.up || InputState.none.down
      || InputState.none.left || InputState.none.right)) = true := by
    rw [hpat]; rfl
  unfold simulatePlayer
  rw [if_pos hcond]
  dsimp only
  rw [if_neg hdist]
  exact ⟨rfl, rfl⟩

/-- C6: for a patrol-active entity with all-false intent, the tick reassigns
the waypoint exactly when the Euclidean distance to the current waypoint is
strictly below 5; in that case the entity does not move that tick and the
fresh waypoint lands in `[50, width−50] × [50, height−50]` (for random draws
in `[0,1]` and world dimensions at least 100); otherwise the waypoint is
kept. -/
theorem patrol_waypoint_reassignment (at2 : ℝ → ℝ → ℝ)
    (width height dt rx ry : ℝ) (p : Player ℝ) (hpat : p.patrol = true)
    (hw : 100 ≤ width) (hh : 100 ≤ height)
    (hrx : 0 ≤ rx) (hrx1 : rx ≤ 1) (hry : 0 ≤ ry) (hry1 : ry ≤ 1) :
    (Real.sqrt ((p.tx - p.x) * (p.tx - p.x) + (p.ty - p.y) * (p.ty - p.y)) < 5 →
      simulatePlayer Real.sqrt at2 width height dt rx ry InputState.none p
          = assignNewWaypoint width height rx ry p ∧
      (simulatePlayer Real.sqrt at2 width height dt rx ry InputState.none p).x
          = p.x ∧
      (simulatePlayer Real.sqrt at2 width height dt rx ry InputState.none p).y
          = p.y ∧
      50 ≤ (simulatePlayer Real.sqrt at2 width height dt rx ry InputState.none p).tx ∧
      (simulatePlayer Real.sqrt at2 width height dt rx ry InputState.none p).tx
          ≤ width - 50 ∧
      50 ≤ (simulatePlayer Real.sqrt at2 width height dt rx ry InputState.none p).ty ∧
      (simulatePlayer Real.sqrt at2 width height dt rx ry InputState.none p).ty
          ≤ height - 50) ∧
    (¬ Real.sqrt ((p.tx - p.x) * (p.tx - p.x) + (p.ty - p.y) * (p.ty - p.y)) < 5 →
      (simulatePlayer Real.sqrt at2 width height dt rx ry InputState.none p).tx
          = p.tx ∧
      (simulatePlayer Real.sqrt at2 width height dt rx ry InputState.none p).ty
          = p.ty) := by
  constructor
  · intro hdist
    have hred := simulatePlayer_patrol_near Real.sqrt at2 width height dt rx ry
      p hpat hdist
    rw [hred]
    refine ⟨rfl, rfl, rfl, ?_, ?_, ?_, ?_⟩
    · show (50 : ℝ) ≤ 50 + rx * (width - 50 * 2)
      nlinarith
    · show 50 + rx * (width - 50 * 2) ≤ width - 50
      nlinarith
    · show (50 : ℝ) ≤ 50 + ry * (height - 50 * 2)
      nlinarith
    · show 50 + ry * (height - 50 * 2) ≤ height - 50
      nlinarith
  · intro hdist
    exact simulatePlayer_patrol_far Real.sqrt at2 width height dt rx ry p hpat
      hdist

/-- Witness for C6: an entity at (100, 100) patrolling toward (100, 103) in
a 2000 × 2000 world with random draws 1/2. -/
theorem patrol_waypoint_reassignment_witness :
    ((⟨100, 100, 0, 180, "#00c2ff", true, 100, 103, 0⟩ : Player ℝ).patrol
        = true) ∧
    (Real.sqrt (((100:ℝ) - 100) * (100 - 100) + ((103:ℝ) - 100) * (103 - 100)) < 5) ∧
    (Real.sqrt (((⟨100, 100, 0, 180, "#00c2ff", true, 100, 103, 0⟩ : Player ℝ).tx
          - (⟨100, 100, 0, 180, "#00c2ff", true, 100, 103, 0⟩ : Player ℝ).x)
        * ((⟨100, 100, 0, 180, "#00c2ff", true, 100, 103, 0⟩ : Player ℝ).tx
          - (⟨100, 100, 0, 180, "#00c2ff", true, 100, 103, 0⟩ : Player ℝ).x)
        + ((⟨100, 100, 0, 180, "#00c2ff", true, 100, 103, 0⟩ : Player ℝ).ty
          - (⟨100, 100, 0, 180, "#00c2ff", true, 100, 103, 0⟩ : Player ℝ).y)
        * ((⟨100, 100, 0, 180, "#00c2ff", true, 100, 103, 0⟩ : Player ℝ).ty
          - (⟨100, 100, 0, 180, "#00c2ff", true, 100, 103, 0⟩ : Player ℝ).y)) < 5 →
      simulatePlayer Real.sqrt (fun _ _ => 0) 2000 2000 (1/30) (1/2) (1/2)
          InputState.none (⟨100, 100, 0, 180, "#00c2ff", true, 100, 103, 0⟩ : Player ℝ)
        = assignNewWaypoint 2000 2000 (1/2) (1/2)
            (⟨100, 100, 0, 180, "#00c2ff", true, 100, 103, 0⟩ : Player ℝ) ∧
      (simulatePlayer Real.sqrt (fun _ _ => 0) 2000 2000 (1/30) (1/2) (1/2)
          InputState.none (⟨100, 100, 0, 180, "#00c2ff", true, 100, 103, 0⟩ : Player ℝ)).x
        = (⟨100, 100, 0, 180, "#00c2ff", true, 100, 103, 0⟩ : Player ℝ).x ∧
      (simulatePlayer Real.sqrt (fun _ _ => 0) 2000 2000 (1/30) (1/2) (1/2)
          InputState.none (⟨100, 100, 0, 180, "#00c2ff", true, 100, 103, 0⟩ : Player ℝ)).y
        = (⟨100, 100, 0, 180, "#00c2ff", true, 100, 103, 0⟩ : Player ℝ).y ∧
      50 ≤ (simulatePlayer Real.sqrt (fun _ _ => 0) 2000 2000 (1/30) (1/2) (1/2)
          InputState.none (⟨100, 100, 0, 180, "#00c2ff", true, 100, 103, 0⟩ : Player ℝ)).tx ∧
      (simulatePlayer Real.sqrt (fun _ _ => 0) 2000 2000 (1/30) (1/2) (1/2)
          InputState.none (⟨100, 100, 0, 180, "#00c2ff", true, 100, 103, 0⟩ : Player ℝ)).tx
        ≤ 2000 - 50 ∧
      50 ≤ (simulatePlayer Real.sqrt (fun _ _ => 0) 2000 2000 (1/30) (1/2) (1/2)
          InputState.none (⟨100, 100, 0, 180, "#00c2ff", true, 100, 103, 0⟩ : Player ℝ)).ty ∧
      (simulatePlayer Real.sqrt (fun _ _ => 0) 2000 2000 (1/30) (1/2) (1/2)
          InputState.none (⟨100, 100, 0, 180, "#00c2ff", true, 100, 103, 0⟩ : Player ℝ)).ty
        ≤ 2000 - 50) :=
  ⟨rfl,
   by
    have h9 : ((100:ℝ) - 100) * (100 - 100) + ((103:ℝ) - 100) * (103 - 100) = 9 := by
      norm_num
    rw [h9, show (9:ℝ) = 3 ^ 2 by norm_num, Real.sqrt_sq (by norm_num : (0:ℝ) ≤ 3)]
    norm_num,
   (patrol_waypoint_reassignment (fun _ _ => 0) 2000 2000 (1/30) (1/2) (1/2)
     (⟨100, 100, 0, 180, "#00c2ff", true, 100, 103, 0⟩ : Player ℝ) rfl
     (by norm_num) (by norm_num) (by norm_num) (by norm_num) (by norm_num)
     (by norm_num)).1⟩

/-- The room tick processes each entity through `simulatePlayer` on that
entity's own state, its own input snapshot, and its own random draws. -/
theorem simulate_lookup (sq : α → α) (at2 : α → α → α) (width height dt : α)
    (inputs : String → InputState) (rand : String → α × α)
    (players : List (String × Player α)) (id : String) (p : Player α)
    (hp : players.lookup id = some p) :
    (simulate sq at2 width height dt inputs rand players).lookup id
      = some (simulatePlayer sq at2 width height dt (rand id).1 (rand id).2
          (inputs id) p) := by
  induction players with
  | nil => simp [List.lookup] at hp
  | cons e es ih =>
    unfold simulate at ih ⊢
    rw [List.map_cons]
    rw [List.lookup] at hp ⊢
    by_cases h : (id == e.1) = true
    · have hid : id = e.1 := eq_of_beq h
      rw [h] at hp ⊢
      simp only [Option.some.injEq] at hp
      subst hp
      rw [hid]
    · rw [Bool.not_eq_true] at h
      rw [h] at hp ⊢
      exact ih hp

/-- C7 counterexample: one tick on one entity state with one intent snapshot
is not a function of that pair alone — the patrol branch consumes
`Math.random()`.  The same patrolling entity sitting on its waypoint, ticked
twice with the same (all-false) intent but different random draws, ends in
two different states. -/
theorem tick_not_deterministic_in_state_and_intent :
    simulatePlayer Real.sqrt (fun _ _ => 0) 2000 2000 (1/30) 0 0
        InputState.none (⟨60, 60, 0, 180, "#00c2ff", true, 60, 60, 0⟩ : Player ℝ)
      ≠ simulatePlayer Real.sqrt (fun _ _ => 0) 2000 2000 (1/30) (1/2) (1/2)
          InputState.none (⟨60, 60, 0, 180, "#00c2ff", true, 60, 60, 0⟩ : Player ℝ) := by
  have hdist : Real.sqrt
      (((⟨60, 60, 0, 180, "#00c2ff", true, 60, 60, 0⟩ : Player ℝ).tx
          - (⟨60, 60, 0, 180, "#00c2ff", true, 60, 60, 0⟩ : Player ℝ).x)
        * ((⟨60, 60, 0, 180, "#00c2ff", true, 60, 60, 0⟩ : Player ℝ).tx
          - (⟨60, 60, 0, 180, "#00c2ff", true, 60, 60, 0⟩ : Player ℝ).x)
        + ((⟨60, 60, 0, 180, "#00c2ff", true, 60, 60, 0⟩ : Player ℝ).ty
          - (⟨60, 60, 0, 180, "#00c2ff", true, 60, 60, 0⟩ : Player ℝ).y)
        * ((⟨60, 60, 0, 180, "#00c2ff", true, 60, 60, 0⟩ : Player ℝ).ty
          - (⟨60, 60, 0, 180, "#00c2ff", true, 60, 60, 0⟩ : Player ℝ).y)) < 5 := by
    show Real.sqrt (((60:ℝ) - 60) * (60 - 60) + ((60:ℝ) - 60) * (60 - 60)) < 5
    norm_num [Real.sqrt_zero]
  rw [simulatePlayer_patrol_near Real.sqrt (fun _ _ => 0) 2000 2000 (1/30) 0 0
      _ rfl hdist,
    simulatePlayer_patrol_near Real.sqrt (fun _ _ => 0) 2000 2000 (1/30)
      (1/2) (1/2) _ rfl hdist]
  intro h
  have htx := congrArg Player.tx h
  simp only [assignNewWaypoint] at htx
  norm_num at htx

/-- C7 (amended): the per-entity tick is a deterministic function of the
triple (entity state, intent snapshot, random draws) — not of the
state-intent pair alone, since the patrol branch consumes `Math.random()` —
and it never depends on any other entity's state: two room ticks that agree
on one entity's state, input snapshot, and draws produce the same next state
for that entity no matter what every other entity in either room is doing. -/
theorem tick_depends_only_on_own_state_intent_and_draws (sq : α → α)
    (at2 : α → α → α) (width height dt : α)
    (inputs1 inputs2 : String → InputState) (rand1 rand2 : String → α × α)
    (players1 players2 : List (String × Player α)) (id : String) (p : Player α)
    (h1 : players1.lookup id = some p) (h2 : players2.lookup id = some p)
    (hi : inputs1 id = inputs2 id) (hr : rand1 id = rand2 id) :
    (simulate sq at2 width height dt inputs1 rand1 players1).lookup id
      = (simulate sq at2 width height dt inputs2 rand2 players2).lookup id := by
  rw [simulate_lookup sq at2 width height dt inputs1 rand1 players1 id p h1,
    simulate_lookup sq at2 width height dt inputs2 rand2 players2 id p h2,
    hi, hr]

/-- Witness for C7's amended theorem: rooms `[a]` and `[b, a]` agree on
entity `a`, so the tick result for `a` agrees. -/
theorem tick_depends_only_on_own_state_witness :
    (([("a", pFix false 0)] : List (String × Player ℚ)).lookup "a"
        = some (pFix false 0) ∧
     ([("b", pFix true 7), ("a", pFix false 0)] : List (String × Player ℚ)).lookup "a"
        = some (pFix false 0)) ∧
    (simulate (fun x => x) (fun _ _ => 0) 2000 2000 (1/30)
        (fun _ => InputState.none) (fun _ => (0, 0))
        [("a", pFix false 0)]).lookup "a"
      = (simulate (fun x => x) (fun _ _ => 0) 2000 2000 (1/30)
          (fun _ => InputState.none) (fun _ => (0, 0))
          [("b", pFix true 7), ("a", pFix false 0)]).lookup "a" :=
  ⟨⟨rfl, rfl⟩,
   tick_depends_only_on_own_state_intent_and_draws (fun x => x) (fun _ _ => 0)
     2000 2000 (1/30) (fun _ => InputState.none) (fun _ => InputState.none)
     (fun _ => (0, 0)) (fun _ => (0, 0)) [("a", pFix false 0)]
     [("b", pFix true 7), ("a", pFix false 0)] "a" (pFix false 0)
     rfl rfl rfl rfl⟩

/-- Scaling compatibility of the diagonal normalization: normalizing the
speed-and-dt-scaled direction pair (as the predictor does) equals scaling
the normalized unit pair (as the reconciliation replay does), first
coordinate. -/
theorem norm_scale_fst (sq : α → α) (u v s : α) :
    (if u * s ≠ 0 ∧ v * s ≠ 0 then (u * s) * (1 / sq 2) else u * s)
      = (if u ≠ 0 ∧ v ≠ 0 then u * (1 / sq 2) else u) * s := by
  by_cases hs : s = 0
  · subst hs
    simp
  · have hiff : (u * s ≠ 0 ∧ v * s ≠ 0) ↔ (u ≠ 0 ∧ v ≠ 0) := by
      rw [mul_ne_zero_iff, mul_ne_zero_iff]
      constructor
      · rintro ⟨⟨hu, _⟩, ⟨hv, _⟩⟩
        exact ⟨hu, hv⟩
      · rintro ⟨hu, hv⟩
        exact ⟨⟨hu, hs⟩, ⟨hv, hs⟩⟩
    by_cases hc : u ≠ 0 ∧ v ≠ 0
    · rw [if_pos (hiff.mpr hc), if_pos hc]
      ring
    · rw [if_neg (fun hh => hc (hiff.mp hh)), if_neg hc]

/-- Scaling compatibility of the diagonal normalization, second coordinate. -/
theorem norm_scale_snd (sq : α → α) (u v s : α) :
    (if u * s ≠ 0 ∧ v * s ≠ 0 then (v * s) * (1 / sq 2) else v * s)
      = (if u ≠ 0 ∧ v ≠ 0 then v * (1 / sq 2) else v) * s := by
  by_cases hs : s = 0
  · subst hs
    simp
  · have hiff : (u * s ≠ 0 ∧ v * s ≠ 0) ↔ (u ≠ 0 ∧ v ≠ 0) := by
      rw [mul_ne_zero_iff, mul_ne_zero_iff]
      constructor
      · rintro ⟨⟨hu, _⟩, ⟨hv, _⟩⟩
        exact ⟨hu, hv⟩
      · rintro ⟨hu, hv⟩
        exact ⟨⟨hu, hs⟩, ⟨hv, hs⟩⟩
    by_cases hc : u ≠ 0 ∧ v ≠ 0
    · rw [if_pos (hiff.mpr hc), if_pos hc]
      ring
    · rw [if_neg (fun hh => hc (hiff.mp hh)), if_neg hc]

/-- Replaying one buffered input in `handlePlayerChange` computes exactly
the same position as one predictor frame over that input's recorded delta:
reconciliation replay and live prediction share the integration formula. -/
theorem applyPending_eq_predictStep (sq : α → α) (w h speed : α)
    (pos : α × α) (i : PendingInput α) :
    applyPending sq w h speed pos i
      = predictStep sq w h speed i.dt i.input pos := by
  unfold applyPending predictStep predictStepDt PendingInput.input
  dsimp only
  have hX : ((if i.left then -(speed * (min i.dt 50 / 1000)) else 0)
        + (if i.right then speed * (min i.dt 50 / 1000) else 0))
      = ((if i.left then (-1 : α) else 0) + (if i.right then 1 else 0))
        * (speed * (min i.dt 50 / 1000)) := by
    cases i.left <;> cases i.right <;> simp
  have hY : ((if i.up then -(speed * (min i.dt 50 / 1000)) else 0)
        + (if i.down then speed * (min i.dt 50 / 1000) else 0))
      = ((if i.up then (-1 : α) else 0) + (if i.down then 1 else 0))
        * (speed * (min i.dt 50 / 1000)) := by
    cases i.up <;> cases i.down <;> simp
  rw [hX, hY, norm_scale_fst sq _ _ (speed * (min i.dt 50 / 1000)),
    norm_scale_snd sq _ _ (speed * (min i.dt 50 / 1000))]
  rw [← mul_assoc, ← mul_assoc]

/-- Discarding acknowledged inputs keeps exactly the unacknowledged suffix:
if every input of the prefix has `seq ≤ last` and every input of the suffix
has `seq > last`, the reconciliation filter returns the suffix. -/
theorem pending_filter_eq (last : ℚ) (l1 l2 : List (PendingInput α))
    (h1 : ∀ i ∈ l1, i.seq ≤ last) (h2 : ∀ i ∈ l2, last < i.seq) :
    (l1 ++ l2).filter (fun i => last < i.seq) = l2 := by
  rw [List.filter_append]
  have e1 : l1.filter (fun i => decide (last < i.seq)) = [] := by
    rw [List.filter_eq_nil_iff]
    intro a ha
    simpa using not_lt.mpr (h1 a ha)
  have e2 : l2.filter (fun i => decide (last < i.seq)) = l2 := by
    rw [List.filter_eq_self]
    intro a ha
    simpa using h2 a ha
  rw [e1, e2, List.nil_append]

/-- C2: reconciliation convergence.  Take a buffer `l1 ++ l2` of pending
inputs whose prefix `l1` carries sequence numbers `≤ last` and whose suffix
`l2` carries sequence numbers `> last`, and an authoritative update that
acknowledges `last` and reports the position obtained by integrating the
prefix from the shared base (the server applies the same formula).  Then
snapping to the authoritative position, discarding acknowledged inputs, and
replaying the survivors reproduces — exactly, in exact arithmetic —
the position continuous unbroken local prediction computes over the whole
buffer. -/
theorem reconciliation_convergence (sq : α → α) (w h speed : α) (last : ℚ)
    (base : α × α) (l1 l2 : List (PendingInput α))
    (h1 : ∀ i ∈ l1, i.seq ≤ last) (h2 : ∀ i ∈ l2, last < i.seq) :
    (reconcile sq w h
        (unbrokenPrediction sq w h speed base l1).1
        (unbrokenPrediction sq w h speed base l1).2
        speed last (l1 ++ l2)).1
      = unbrokenPrediction sq w h speed base (l1 ++ l2) := by
  unfold reconcile unbrokenPrediction
  dsimp only
  rw [pending_filter_eq last l1 l2 h1 h2]
  have hfun : (applyPending sq w h speed)
      = fun pos i => predictStep sq w h speed i.dt i.input pos := by
    funext pos i
    exact applyPending_eq_predictStep sq w h speed pos i
  rw [hfun, List.foldl_append]

/-- Witness for C2: a two-input buffer whose first input (seq 1) is
acknowledged and whose second (seq 2) is replayed. -/
theorem reconciliation_convergence_witness :
    (∀ i ∈ ([⟨1, true, false, false, false, 16⟩] : List (PendingInput ℚ)),
        i.seq ≤ 1) ∧
    (∀ i ∈ ([⟨2, false, false, true, false, 33⟩] : List (PendingInput ℚ)),
        1 < i.seq) ∧
    (reconcile (fun x : ℚ => x) 2000 2000
        (unbrokenPrediction (fun x : ℚ => x) 2000 2000 180 (100, 100)
          [⟨1, true, false, false, false, 16⟩]).1
        (unbrokenPrediction (fun x : ℚ => x) 2000 2000 180 (100, 100)
          [⟨1, true, false, false, false, 16⟩]).2
        180 1
        ([⟨1, true, false, false, false, 16⟩]
          ++ [⟨2, false, false, true, false, 33⟩])).1
      = unbrokenPrediction (fun x : ℚ => x) 2000 2000 180 (100, 100)
          ([⟨1, true, false, false, false, 16⟩]
            ++ [⟨2, false, false, true, false, 33⟩]) :=
  ⟨by decide, by decide,
   reconciliation_convergence (fun x : ℚ => x) 2000 2000 180 1 (100, 100)
     [⟨1, true, false, false, false, 16⟩]
     [⟨2, false, false, true, false, 33⟩]
     (by decide) (by decide)⟩

/-- A message that fails the token check leaves the flag false and writes
back the refilled bucket. -/
theorem handleInput_drop_components (now : ℚ) (data : InputMessage)
    (st : ConnState α) (b : Bucket) (hb : st.bucket = some b)
    (hacc : min MAX_INPUTS_PER_SEC
      (b.tokens + ((now - b.last) / 1000) * MAX_INPUTS_PER_SEC) < 1) :
    (handleInput now data st).2 = false ∧
    (handleInput now data st).1.bucket = some
      ⟨min MAX_INPUTS_PER_SEC
        (b.tokens + ((now - b.last) / 1000) * MAX_INPUTS_PER_SEC), now⟩ := by
  unfold handleInput
  rw [hb]
  dsimp only
  rw [if_pos hacc]
  exact ⟨rfl, rfl⟩

/-- A message that passes the token check sets the flag and consumes one
token from the refilled bucket. -/
theorem handleInput_accept_components (now : ℚ) (data : InputMessage)
    (st : ConnState α) (b : Bucket) (hb : st.bucket = some b)
    (hacc : ¬ min MAX_INPUTS_PER_SEC
      (b.tokens + ((now - b.last) / 1000) * MAX_INPUTS_PER_SEC) < 1) :
    (handleInput now data st).2 = true ∧
    (handleInput now data st).1.bucket = some
      ⟨min MAX_INPUTS_PER_SEC
        (b.tokens + ((now - b.last) / 1000) * MAX_INPUTS_PER_SEC) - 1, now⟩ := by
  unfold handleInput
  rw [hb]
  dsimp only
  rw [if_neg hacc]
  exact ⟨rfl, rfl⟩

/-- Splitting a message list splits the accepted count. -/
theorem runInputs_append (st : ConnState α) (l1 l2 : List (ℚ × InputMessage)) :
    runInputs st (l1 ++ l2)
      = ((runInputs (runInputs st l1).1 l2).1,
         (runInputs st l1).2 + (runInputs (runInputs st l1).1 l2).2) := by
  induction l1 generalizing st with
  | nil => simp [runInputs]
  | cons m ms ih => simp [runInputs, ih, Nat.add_assoc]

/-- A burst of `k` messages all stamped at the bucket's own timestamp gets
no refill and consumes one token each: with `k ≤ tokens ≤ capacity`, all
`k` are accepted and exactly `k` tokens are gone. -/
theorem runInputs_replicate_now (k : ℕ) :
    ∀ (st : ConnState α) (n t : ℚ) (data : InputMessage),
      st.bucket = some ⟨n, t⟩ → (k : ℚ) ≤ n → n ≤ MAX_INPUTS_PER_SEC →
      (runInputs st (List.replicate k (t, data))).2 = k ∧
      (runInputs st (List.replicate k (t, data))).1.bucket
        = some ⟨n - (k : ℚ), t⟩ := by
  induction k with
  | zero =>
    intro st n t data hb _ _
    refine ⟨rfl, ?_⟩
    rw [List.replicate_zero]
    unfold runInputs
    rw [hb]
    norm_num
  | succ k ih =>
    intro st n t data hb hk hn
    have h1n : (1 : ℚ) ≤ n := le_trans (by push_cast; linarith [Nat.zero_le k]) hk
    have htok0 : min MAX_INPUTS_PER_SEC
        (n + ((t - t) / 1000) * MAX_INPUTS_PER_SEC) = n := by
      rw [sub_self, zero_div, zero_mul, add_zero]
      exact min_eq_right hn
    have hacc : ¬ min MAX_INPUTS_PER_SEC
        (n + ((t - t) / 1000) * MAX_INPUTS_PER_SEC) < 1 := by
      rw [htok0]
      exact not_lt.mpr h1n
    have hcomp := handleInput_accept_components t data st ⟨n, t⟩ hb hacc
    dsimp only at hcomp
    have hb' : (handleInput t data st).1.bucket = some ⟨n - 1, t⟩ := by
      rw [hcomp.2, htok0]
    have hk' : (k : ℚ) ≤ n - 1 := by push_cast at hk ⊢; linarith
    have hn' : n - 1 ≤ MAX_INPUTS_PER_SEC := by
      have : (0 : ℚ) < 1 := one_pos
      linarith
    have ihres := ih (handleInput t data st).1 (n - 1) t data hb' hk' hn'
    rw [List.replicate_succ]
    unfold runInputs
    dsimp only
    rw [hcomp.1, if_pos rfl, ihres.1]
    refine ⟨Nat.add_comm 1 k, ?_⟩
    rw [ihres.2]
    have : n - 1 - (k : ℚ) = n - ((k : ℕ) + 1 : ℕ) := by push_cast; ring
    rw [this]

/-- The accepted-message count over any nondecreasing timestamped message
list is bounded by the starting tokens plus the refill accrued over the
window: `count ≤ tokens + (T − last)/1000 · rate`. -/
theorem runInputs_count_le (msgs : List (ℚ × InputMessage)) :
    ∀ (st : ConnState α) (b : Bucket) (T : ℚ), st.bucket = some b →
      0 ≤ b.tokens → b.last ≤ T →
      List.Chain (· ≤ ·) b.last (msgs.map Prod.fst) →
      (∀ m ∈ msgs, m.1 ≤ T) →
      ((runInputs st msgs).2 : ℚ)
        ≤ b.tokens + (T - b.last) / 1000 * MAX_INPUTS_PER_SEC := by
  induction msgs with
  | nil =>
    intro st b T hb htok hlast _ _
    have hrefill : 0 ≤ (T - b.last) / 1000 * MAX_INPUTS_PER_SEC :=
      mul_nonneg (div_nonneg (by linarith) (by norm_num))
        (by norm_num [MAX_INPUTS_PER_SEC])
    simp [runInputs]
    linarith
  | cons m ms ih =>
    intro st b T hb htok hlast hchain hT
    rw [List.map_cons] at hchain
    rcases hchain with _ | ⟨hbl, hchain'⟩
    have hmT : m.1 ≤ T := hT m (List.mem_cons_self m ms)
    have hmsT : ∀ x ∈ ms, x.1 ≤ T := fun x hx => hT x (List.mem_cons_of_mem m hx)
    have htok0nn : 0 ≤ min MAX_INPUTS_PER_SEC
        (b.tokens + ((m.1 - b.last) / 1000) * MAX_INPUTS_PER_SEC) := by
      refine le_min (by norm_num [MAX_INPUTS_PER_SEC]) ?_
      have : 0 ≤ ((m.1 - b.last) / 1000) * MAX_INPUTS_PER_SEC :=
        mul_nonneg (div_nonneg (by linarith) (by norm_num))
          (by norm_num [MAX_INPUTS_PER_SEC])
      linarith
    have htok0le : min MAX_INPUTS_PER_SEC
        (b.tokens + ((m.1 - b.last) / 1000) * MAX_INPUTS_PER_SEC)
          ≤ b.tokens + ((m.1 - b.last) / 1000) * MAX_INPUTS_PER_SEC :=
      min_le_right _ _
    have hsplit : (m.1 - b.last) / 1000 * MAX_INPUTS_PER_SEC
        + (T - m.1) / 1000 * MAX_INPUTS_PER_SEC
          = (T - b.last) / 1000 * MAX_INPUTS_PER_SEC := by
      ring
    unfold runInputs
    dsimp only
    by_cases hacc : min MAX_INPUTS_PER_SEC
        (b.tokens + ((m.1 - b.last) / 1000) * MAX_INPUTS_PER_SEC) < 1
    · have hcomp := handleInput_drop_components m.1 m.2 st b hb hacc
      have hrest := ih (handleInput m.1 m.2 st).1
        ⟨min MAX_INPUTS_PER_SEC
          (b.tokens + ((m.1 - b.last) / 1000) * MAX_INPUTS_PER_SEC), m.1⟩ T
        hcomp.2 htok0nn hmT hchain' hmsT
    -- hrest bounds the tail count from the refilled-and-dropped bucket
      rw [hcomp.1]
      simp only [Bool.false_eq_true, if_false]
      push_cast
      push_cast at hrest
      linarith
    · have hcomp := handleInput_accept_components m.1 m.2 st b hb hacc
      have hge1 : 1 ≤ min MAX_INPUTS_PER_SEC
          (b.tokens + ((m.1 - b.last) / 1000) * MAX_INPUTS_PER_SEC) :=
        not_lt.mp hacc
      have hrest := ih (handleInput m.1 m.2 st).1
        ⟨min MAX_INPUTS_PER_SEC
          (b.tokens + ((m.1 - b.last) / 1000) * MAX_INPUTS_PER_SEC) - 1, m.1⟩ T
        hcomp.2 (by linarith) hmT hchain' hmsT
      rw [hcomp.1, if_pos rfl]
      push_cast
      push_cast at hrest
      linarith

/-- C4 counterexample: starting from the join-time bucket, a burst of 60
messages at time 0 followed by one more at 999 ms — 61 messages inside the
first second, sent faster than 60 per second — gets 61 messages accepted,
refuting the claim that at most `ceil(capacity) = 60` are accepted in the
first second of a faster-than-rate burst. -/
theorem rate_limiter_can_accept_61_in_first_second :
    ((runInputs
        (⟨some (joinBucket 0), InputState.none, Option.none⟩ : ConnState ℚ)
        (List.replicate 60 ((0 : ℚ), msgFix Option.none Option.none)
          ++ [((999 : ℚ), msgFix Option.none Option.none)])).2 = 61) ∧
    ¬ (61 ≤ 60) ∧ (0 : ℚ) ≤ 0 ∧ (999 : ℚ) < 0 + 1000 := by
  refine ⟨?_, by norm_num, by norm_num, by norm_num⟩
  rw [runInputs_append]
  have h60 := runInputs_replicate_now (α := ℚ) 60
    ⟨some (joinBucket 0), InputState.none, Option.none⟩ 60 0
    (msgFix Option.none Option.none) rfl (by norm_num)
    (by norm_num [MAX_INPUTS_PER_SEC])
  have hb0 : (runInputs
      (⟨some (joinBucket 0), InputState.none, Option.none⟩ : ConnState ℚ)
      (List.replicate 60 ((0 : ℚ), msgFix Option.none Option.none))).1.bucket
        = some ⟨0, 0⟩ := by
    rw [h60.2]
    norm_num
  have hacc : ¬ min MAX_INPUTS_PER_SEC
      (((⟨0, 0⟩ : Bucket)).tokens + ((999 - (⟨0, 0⟩ : Bucket).last) / 1000)
        * MAX_INPUTS_PER_SEC) < 1 := by
    show ¬ min MAX_INPUTS_PER_SEC ((0 : ℚ) + ((999 - 0) / 1000)
      * MAX_INPUTS_PER_SEC) < 1
    norm_num [MAX_INPUTS_PER_SEC, min_def]
  have hstep := handleInput_accept_components 999
    (msgFix Option.none Option.none) _ ⟨0, 0⟩ hb0 hacc
  show (runInputs _ (List.replicate 60 ((0 : ℚ), msgFix Option.none Option.none))).2
      + (runInputs _ [((999 : ℚ), msgFix Option.none Option.none)]).2 = 61
  rw [h60.1]
  unfold runInputs
  dsimp only
  rw [hstep.1, if_pos rfl]
  rfl

/-- C4 (amended): from the full bucket created at join, a burst whose
messages all lie within `D` milliseconds of the join accepts at most
`capacity + rate · D/1000` messages — at most 120, not 60, within the first
second; the 60 bound holds only when the whole burst arrives at one
instant (`D = 0`). -/
theorem rate_limiter_burst_bound (t0 D : ℚ) (snap : InputState)
    (pl : Option (Player α)) (msgs : List (ℚ × InputMessage)) (hD : 0 ≤ D)
    (hchain : List.Chain (· ≤ ·) t0 (msgs.map Prod.fst))
    (hin : ∀ m ∈ msgs, m.1 ≤ t0 + D) :
    ((runInputs (⟨some (joinBucket t0), snap, pl⟩ : ConnState α) msgs).2 : ℚ)
      ≤ MAX_INPUTS_PER_SEC + D / 1000 * MAX_INPUTS_PER_SEC := by
  have h := runInputs_count_le msgs
    (⟨some (joinBucket t0), snap, pl⟩ : ConnState α) (joinBucket t0) (t0 + D)
    rfl (by norm_num [joinBucket, MAX_INPUTS_PER_SEC])
    (by simp only [joinBucket]; linarith) hchain hin
  simp only [joinBucket] at h
  have he : t0 + D - t0 = D := by ring
  rw [he] at h
  exact h

/-- Witness for C4's amended theorem: two messages, at join time and 999 ms
later. -/
theorem rate_limiter_burst_bound_witness :
    ((0 : ℚ) ≤ 999 ∧
     List.Chain (· ≤ ·) (0 : ℚ)
       ([((0 : ℚ), msgFix Option.none Option.none),
         ((999 : ℚ), msgFix Option.none Option.none)].map Prod.fst)) ∧
    ((runInputs
        (⟨some (joinBucket 0), InputState.none, Option.none⟩ : ConnState ℚ)
        [((0 : ℚ), msgFix Option.none Option.none),
         ((999 : ℚ), msgFix Option.none Option.none)]).2 : ℚ)
      ≤ MAX_INPUTS_PER_SEC + 999 / 1000 * MAX_INPUTS_PER_SEC :=
  ⟨⟨by norm_num,
    List.Chain.cons (le_refl 0) (List.Chain.cons (by norm_num) List.Chain.nil)⟩,
   rate_limiter_burst_bound 0 999 InputState.none Option.none
     [((0 : ℚ), msgFix Option.none Option.none),
      ((999 : ℚ), msgFix Option.none Option.none)]
     (by norm_num)
     (List.Chain.cons (le_refl 0) (List.Chain.cons (by norm_num) List.Chain.nil))
     (by
       intro m hm
       simp at hm
       rcases hm with rfl | rfl <;> norm_num)⟩

/-- C9: a tick that produces exactly zero velocity — all four intents false
and patrol not driving the entity — skips the whole movement block, leaving
`angle` (indeed the whole entity) unchanged; and whenever the manual branch
does run (net direction nonzero), `angle` is assigned `atan2(vy, vx)` of
the actual velocity vector — so `atan2` is consulted only for non-degenerate
motion. -/
theorem angle_unchanged_on_zero_velocity (sq : α → α) (at2 : α → α → α)
    (width height dt rx ry : α) (input : InputState) (p : Player α)
    (hpat : p.patrol = false) :
    (input = InputState.none →
      simulatePlayer sq at2 width height dt rx ry input p = p) ∧
    ((dirX (α := α) input ≠ 0 ∨ dirY (α := α) input ≠ 0) →
      (simulatePlayer sq at2 width height dt rx ry input p).angle
        = at2 (velocity sq input p.speed).2 (velocity sq input p.speed).1) := by
  have hcond : ¬ ((p.patrol && !(input.up || input.down || input.left
      || input.right)) = true) := by
    rw [hpat]
    exact Bool.false_ne_true
  constructor
  · intro hin
    subst hin
    have hx : dirX (α := α) InputState.none = 0 := by
      norm_num [dirX, InputState.none]
    have hy : dirY (α := α) InputState.none = 0 := by
      norm_num [dirY, InputState.none]
    unfold simulatePlayer
    rw [if_neg hcond]
    dsimp only
    rw [if_neg]
    rintro (h | h)
    · exact h hx
    · exact h hy
  · intro hdir
    unfold simulatePlayer
    rw [if_neg hcond]
    dsimp only
    rw [if_pos hdir]

/-- Witness for C9: a non-patrolling entity with no intents is untouched by
the tick. -/
theorem angle_unchanged_on_zero_velocity_witness :
    ((pFix false 0).patrol = false) ∧
    ((InputState.none = InputState.none →
      simulatePlayer (fun x : ℚ => x) (fun _ _ => 0) 2000 2000 (1/30) 0 0
        InputState.none (pFix false 0) = pFix false 0) ∧
     ((dirX (α := ℚ) InputState.none ≠ 0 ∨ dirY (α := ℚ) InputState.none ≠ 0) →
      (simulatePlayer (fun x : ℚ => x) (fun _ _ => 0) 2000 2000 (1/30) 0 0
          InputState.none (pFix false 0)).angle
        = ((fun _ _ => (0 : ℚ)) (velocity (fun x : ℚ => x) InputState.none
              (pFix false 0).speed).2
            (velocity (fun x : ℚ => x) InputState.none (pFix false 0).speed).1))) :=
  ⟨rfl,
   angle_unchanged_on_zero_velocity (fun x : ℚ => x) (fun _ _ => 0) 2000 2000
     (1/30) 0 0 InputState.none (pFix false 0) rfl⟩

end Arena
